import Mathlib

/-
Verification of the real-time synthesis core of Aural-Landscapes.

Shallow embedding conventions:
- C float values are modelled as rationals.  Every concrete input used in a
  counterexample or evaluation below keeps the C float arithmetic exact
  (small integers and halves), so the rational model and the float program
  agree on those runs.  Division follows the Lean convention x / 0 = 0; no
  claim below exercises a zero divisor.
- C int values are modelled as integers; an assignment of a float expression
  to an int variable is modelled by truncation toward zero (truncToInt).
- A read past the end of a C array is undefined behavior and is modelled by
  Option.none.
- The printf diagnostics of breakpoints.c are modelled by a Boolean warned
  flag in the result of get_timeval.
-/

namespace AuralLandscapes

/-- Truncation toward zero, the conversion C applies when a float expression
is assigned to an int variable. -/
def truncToInt (q : ℚ) : ℤ :=
  if 0 ≤ q then ⌊q⌋ else -⌊-q⌋

/-- One time-value pair, mirroring struct breakpoint in breakpoints.h. -/
structure Breakpoint where
  time : ℚ
  val : ℚ
deriving DecidableEq, Repr

/-- Mirror of struct breakpoints in breakpoints.h.  The C struct stores the
array, its length len, and maxtime; the len field always equals the length of
the stored array (the loader sets len = count), so the model derives it from
the list (bp_len below). -/
structure Breakpoints where
  list : List Breakpoint
  maxtime : ℚ
deriving DecidableEq, Repr

/-- Model of the int len field of struct breakpoints. -/
def bp_len (bp : Breakpoints) : ℕ :=
  bp.list.length

/-- Result of one get_timeval call: the warned flag records whether a
diagnostic message was printed, and val is the returned float, none standing
for a value obtained from an out-of-bounds array read (undefined behavior). -/
structure TimevalResult where
  warned : Bool
  val : Option ℚ
deriving DecidableEq, Repr

/-- Mirror of the scan loop of get_timeval (breakpoints.c lines 29-33):
for(i = 0; i < bp->len-1; i++) if(bp->list[i+1].time > time) break;
The returned index is the least i with list[i+1].time > time, or len-1 when
no such i exists (and 0 when the list is a singleton, where the loop body
never runs). -/
def bp_index : List Breakpoint → ℚ → ℕ
  | [], _ => 0
  | [_], _ => 0
  | _ :: b :: rest, time => if b.time > time then 0 else bp_index (b :: rest) time + 1

/-- Mirror of get_timeval in breakpoints.c.  Negative times and empty lists
print a diagnostic and return 0.  Otherwise the scan loop picks index i, the
dead branch i == len would return list[i].val, and the interpolation step
reads list[i] and list[i+1]; a read at an index outside the list yields
none. -/
def get_timeval (bp : Breakpoints) (time : ℚ) : TimevalResult :=
  if time < 0 then { warned := true, val := some 0 }
  else if bp_len bp = 0 then { warned := true, val := some 0 }
  else
    let i := bp_index bp.list time
    if i = bp_len bp then
      { warned := false, val := (bp.list.get? i).map (fun b => b.val) }
    else
      match bp.list.get? i, bp.list.get? (i + 1) with
      | some bpi, some bpj =>
        let dt := bpj.time - bpi.time
        let da := bpj.val - bpi.val
        let frac := (time - bpi.time) / dt
        { warned := false, val := some (bpi.val + da * frac) }
      | _, _ => { warned := false, val := none }

/-- Mirror of get_percentval in breakpoints.c. -/
def get_percentval (bp : Breakpoints) (percentage : ℚ) : TimevalResult :=
  get_timeval bp (bp.maxtime * percentage)

/-- Concrete two-point breakpoint list used to exercise the clamp path of
get_timeval: points (0,1) and (1,5), maxtime 1. -/
def bpC1 : Breakpoints :=
  { list := [{ time := 0, val := 1 }, { time := 1, val := 5 }], maxtime := 1 }

/-- Concrete empty breakpoint list. -/
def bpEmpty : Breakpoints :=
  { list := [], maxtime := 0 }

/-- Mirror of the read-validate-store loop of load_bp_file in breakpoints.c.
The input models the lines returned by fgets, each either parsed by sscanf
into a time-value pair (some) or unparsable (none, sscanf result different
from 2).  The accumulator is the list built so far and the third argument
the current value of the local float variable time; C leaves that variable
uninitialized before the first line, and the top level call passes 0 (no
claim depends on the empty-file path).  Failure paths (unparsable line,
first time nonzero, a time below the previous stored time list[count-1])
return none, like the NULL returns of the C code.  Allocation failures are
not modelled. -/
def load_go : List (Option (ℚ × ℚ)) → List Breakpoint → ℚ → Option (List Breakpoint × ℚ)
  | [], acc, t => some (acc, t)
  | none :: _, _, _ => none
  | some (time, v) :: rest, acc, _ =>
    match acc.getLast? with
    | none => if time ≠ 0 then none else load_go rest (acc ++ [{ time := time, val := v }]) time
    | some last =>
      if time < last.time then none else load_go rest (acc ++ [{ time := time, val := v }]) time

/-- Mirror of load_bp_file in breakpoints.c: on success the struct holds the
stored list and maxtime, the time read in the last loop iteration. -/
def load_bp_file (lines : List (Option (ℚ × ℚ))) : Option Breakpoints :=
  (load_go lines [] 0).map (fun r => { list := r.1, maxtime := r.2 })

/-- Check for a strict decrease between two consecutive parsed lines, used by
spec_malformed_strict. -/
def adjDec (a b : Option (ℚ × ℚ)) : Bool :=
  match a, b with
  | some (t1, _), some (t2, _) => decide (t2 < t1)
  | _, _ => false

/-- Modelled from the amended claim wording: an input is malformed when some
line is unparsable, or the first line parses to a time different from 0, or
some line parses to a time strictly smaller than the parsed time of the line
before it.  Equal consecutive times are deliberately not counted as
malformed, matching the strict comparison the loader performs. -/
def spec_malformed_strict (lines : List (Option (ℚ × ℚ))) : Bool :=
  lines.any (fun l => l.isNone) ||
  (match lines with
   | some (t, _) :: _ => decide (t ≠ 0)
   | _ => false) ||
  (lines.zip lines.tail).any (fun p => adjDec p.1 p.2)

/-- Concrete loader input whose two lines carry equal times 0 and 0. -/
def linesEqualTimes : List (Option (ℚ × ℚ)) :=
  [some (0, 1), some (0, 2)]

/-- Concrete loader input whose third line time 3 drops below the second
line time 5. -/
def linesDecreasing : List (Option (ℚ × ℚ)) :=
  [some (0, 1), some (5, 1), some (3, 1)]

/-- Mirror of struct oscillator in oscillator.h.  The C struct stores
pointers to a shared lookup table and a shared Breakpoints struct; the model
stores the pointed-to values.  The fields index and inc are declared int in
oscillator.h and are therefore integers here, while freq, amplitude,
slength, curr_t and tinc are floats, modelled as rationals. -/
structure Oscillator where
  id : ℤ
  tab : List ℚ
  tablen : ℤ
  vol_bp : Breakpoints
  freq : ℚ
  amplitude : ℚ
  slength : ℚ
  samplerate : ℤ
  curr_sample : ℤ
  curr_t : ℚ
  index : ℤ
  inc : ℤ
  tinc : ℚ
deriving DecidableEq, Repr

/-- Mirror of new_osc in oscillator.c.  Assignments of float expressions to
the int fields curr_sample and inc truncate toward zero. -/
def new_osc (id : ℤ) (tab : List ℚ) (tablen : ℤ) (vol_bp : Breakpoints)
    (samplerate : ℤ) (freq amplitude length waittime : ℚ) : Oscillator :=
  { id := id
    tab := tab
    tablen := tablen
    vol_bp := vol_bp
    samplerate := samplerate
    freq := freq
    amplitude := amplitude
    slength := length * (samplerate : ℚ)
    index := 0
    curr_t := 0
    curr_sample := truncToInt (-(waittime * (samplerate : ℚ)))
    inc := truncToInt (freq * (tablen : ℚ) / (samplerate : ℚ))
    tinc := 1 / (samplerate : ℚ) }

/-- Mirror of oscil_tick in oscillator.c.  Outside the active range the call
increments curr_sample and returns 0.  In the active range it reads
tab[index] (none when the int index falls outside the table, an undefined
read), recomputes inc from freq * tablen / samplerate with the float-to-int
truncation the int field forces, advances index with the single-subtraction
wrap, advances curr_t, and scales the sample by the base amplitude and by
the envelope value at the fraction of the length already played. -/
def oscil_tick (osc : Oscillator) : Option ℚ × Oscillator :=
  if osc.curr_sample < 0 ∨ (osc.curr_sample : ℚ) > osc.slength then
    (some 0, { osc with curr_sample := osc.curr_sample + 1 })
  else
    let tabval : Option ℚ :=
      if 0 ≤ osc.index ∧ osc.index < (osc.tab.length : ℤ) then osc.tab.get? osc.index.toNat
      else none
    let inc1 : ℤ := truncToInt (osc.freq * (osc.tablen : ℚ) / (osc.samplerate : ℚ))
    let index1 : ℤ := osc.index + inc1
    let index2 : ℤ := if index1 > osc.tablen then index1 - osc.tablen else index1
    let perc : ℚ := ((osc.curr_sample + 1 : ℤ) : ℚ) / osc.slength
    let amp : Option ℚ := (get_percentval osc.vol_bp perc).val
    let out : Option ℚ :=
      match tabval, amp with
      | some x, some a => some (osc.amplitude * x * a)
      | _, _ => none
    (out,
     { osc with
        curr_sample := osc.curr_sample + 1
        inc := inc1
        index := index2
        curr_t := osc.curr_t + osc.tinc })

/-- Mirror of oscil_expired in oscillator.c. -/
def oscil_expired (osc : Oscillator) : Bool :=
  if (osc.curr_sample : ℚ) > osc.slength then true else false

/-- State of an oscillator after k oscil_tick calls. -/
def tickN (osc : Oscillator) : ℕ → Oscillator
  | 0 => osc
  | n + 1 => tickN (oscil_tick osc).2 n

/-- Return value of the (i+1)-th oscil_tick call on an oscillator. -/
def tickOut (osc : Oscillator) (i : ℕ) : Option ℚ :=
  (oscil_tick (tickN osc i)).1

/-- Constant-one envelope on [0,1], used for concrete oscillator runs. -/
def bpUnit : Breakpoints :=
  { list := [{ time := 0, val := 1 }, { time := 1, val := 1 }], maxtime := 1 }

/-- Concrete oscillator whose true phase increment 1 * 3 / 2 is the
non-integer 1.5: freq 1, table of length 3, samplerate 2, amplitude 1,
length 5 seconds, no wait. -/
def oscC2 : Oscillator :=
  new_osc 1 [0, 0, 0] 3 bpUnit 2 1 1 5 0

/-- Concrete oscillator with phase increment 3 on a table of length 4
(freq 3, samplerate 4, length 3 seconds, no wait), which drives index to
exactly tablen after four active ticks. -/
def oscC10 : Oscillator :=
  new_osc 1 [0, 0, 0, 0] 4 bpUnit 4 3 1 3 0

/-- Concrete oscillator state sitting in pre-roll (curr_sample negative). -/
def oscPre : Oscillator :=
  { id := 1, tab := [0], tablen := 1, vol_bp := bpUnit, freq := 440, amplitude := 1,
    slength := 10, samplerate := 48000, curr_sample := -5, curr_t := 0,
    index := 0, inc := 0, tinc := 0 }

/-- Mirror of oscil_list_add in oscillator.c: appends a node at the end of
the list. -/
def oscil_list_add (l : List Oscillator) (osc : Oscillator) : List Oscillator :=
  l ++ [osc]

/-- Mirror of oscil_list_remove in oscillator.c: unlinks and frees the first
node whose oscillator carries the given id, leaving the list unchanged when
no node matches. -/
def oscil_list_remove : List Oscillator → ℤ → List Oscillator
  | [], _ => []
  | o :: rest, i => if o.id = i then rest else o :: oscil_list_remove rest i

/-- Mirror of the scan loop of synch_update in the audio player source.  The
first argument is the live list, the second the cursor.  In C the cursor
holds node pointers into the live list and saves curr->next before any
removal; every removal deletes the first node carrying the current id,
which sits at or before the cursor, so the saved successor chain is exactly
a forward walk of the original node sequence, which is what the snapshot
cursor models. -/
def synch_go : List Oscillator → List Oscillator → List Oscillator
  | l, [] => l
  | l, o :: rest =>
    if oscil_expired o = true then synch_go (oscil_list_remove l o.id) rest
    else synch_go l rest

/-- Mirror of synch_update in the audio player source: walk the oscillator
list and remove every expired oscillator by id. -/
def synch_update (l : List Oscillator) : List Oscillator :=
  synch_go l l

/-- Concrete active oscillator (curr_sample 3 of slength 10), id 1. -/
def oscActive : Oscillator :=
  { id := 1, tab := [0], tablen := 1, vol_bp := bpUnit, freq := 1, amplitude := 1,
    slength := 10, samplerate := 2, curr_sample := 3, curr_t := 0,
    index := 0, inc := 1, tinc := 0 }

/-- Concrete expired oscillator (curr_sample 20 past slength 10), id 2. -/
def oscExpired : Oscillator :=
  { oscActive with id := 2, curr_sample := 20 }

/-- Concrete expired oscillator sharing id 1 with oscActive, used to show
that reap misbehaves when ids repeat. -/
def oscExpiredDup : Oscillator :=
  { oscActive with id := 1, curr_sample := 20 }

/-- Lifted addition on tick results, mirroring val += oscil_tick(...): when
either operand is the undefined marker the accumulated sample is
undefined. -/
def optAdd (a b : Option ℚ) : Option ℚ :=
  match a, b with
  | some x, some y => some (x + y)
  | _, _ => none

/-- Mirror of the inner while loop of audio_player_callback: walk the
oscillator list once, ticking every oscillator in list order and summing the
results into the accumulator val; returns the accumulated sample and the
advanced oscillator states. -/
def mix_tick : List Oscillator → Option ℚ → Option ℚ × List Oscillator
  | [], val => (val, [])
  | o :: rest, val =>
    let r := oscil_tick o
    let m := mix_tick rest (optAdd val r.1)
    (m.1, r.2 :: m.2)

/-- Mirror of the sample loop of audio_player_callback in the audio player
source: for each of framesPerBuffer samples, start val at 0, tick every
oscillator in list order summing into val, and store val as out[i].  Returns
the output buffer and the final oscillator states.  The PortAudio plumbing
around the loop and the optional file write after the unlock carry no sample
computation and are not modelled. -/
def audio_player_callback : List Oscillator → ℕ → List (Option ℚ) × List Oscillator
  | oscs, 0 => ([], oscs)
  | oscs, n + 1 =>
    let m := mix_tick oscs (some 0)
    let r := audio_player_callback m.2 n
    (m.1 :: r.1, r.2)

/-- Sum, over the oscillators of a list, of the result of tick number i of
each oscillator run on its own: the value claim C9 says sample i of a
rendered frame must equal. -/
def sampleSum (oscs : List Oscillator) (i : ℕ) : Option ℚ :=
  oscs.foldl (fun acc o => optAdd acc (tickOut o i)) (some 0)

/-- Events on the shared oscillator collection, for checking the locking
discipline: lock and unlock are the pthread_mutex_lock and
pthread_mutex_unlock calls on osc_list_lock, access is a read or write of
player->osc_list or of its nodes. -/
inductive RegEvent where
  | lock
  | unlock
  | access
deriving DecidableEq, Repr

/-- Event trace of add_osc: pthread_mutex_lock, then oscil_list_add walks
and extends the shared list, then pthread_mutex_unlock.  The new_osc call
between them builds a fresh node and never touches the shared list. -/
def add_osc_events : List RegEvent :=
  [RegEvent.lock, RegEvent.access, RegEvent.unlock]

/-- Event trace of audio_player_callback: one pthread_mutex_lock before the
sample loop, then for every one of the framesPerBuffer samples one access
for the head read plus one per node visited while summing, then one
pthread_mutex_unlock after the loop. -/
def audio_player_callback_events (framesPerBuffer oscCount : ℕ) : List RegEvent :=
  RegEvent.lock ::
    (List.replicate (framesPerBuffer * (oscCount + 1)) RegEvent.access ++ [RegEvent.unlock])

/-- Event trace of synch_update: one access reading player->osc_list, then
one access per visited node for the expired check, plus one more for the
oscil_list_remove call when the node is expired.  The body of synch_update
contains no pthread_mutex call at all, so no lock or unlock event ever
occurs in its trace. -/
def synch_update_events (oscs : List Oscillator) : List RegEvent :=
  RegEvent.access ::
    oscs.foldr
      (fun o acc =>
        if oscil_expired o = true then RegEvent.access :: RegEvent.access :: acc
        else RegEvent.access :: acc)
      []

/-- Fold tracking the mutex depth along a trace and checking that every
access event happens at positive depth. -/
def locked_run : List RegEvent → ℕ → Bool
  | [], _ => true
  | RegEvent.lock :: r, d => locked_run r (d + 1)
  | RegEvent.unlock :: r, d => locked_run r (d - 1)
  | RegEvent.access :: r, d => decide (0 < d) && locked_run r d

/-- A trace respects the discipline when, starting unlocked, every access to
the shared collection happens while the lock is held. -/
def accessesLocked (t : List RegEvent) : Bool :=
  locked_run t 0

end AuralLandscapes

namespace AuralLandscapes

/-- Claim C1: for a non-empty breakpoint list and t at or beyond maxtime,
get_timeval is claimed to clamp to the last value instead of reading past the
list.  The code does not: the loop leaves i at most len-1, so the clamp
branch tests i == len and never fires, and the interpolation step reads
list[len], one element past the end.  At the concrete list bpC1 with t = 2
the result is the undefined out-of-bounds marker, not the last value 5. -/
theorem c1_read_past_end :
    bpC1.maxtime ≤ 2 ∧ bp_len bpC1 ≠ 0 ∧
    (get_timeval bpC1 2).val = none ∧ (get_timeval bpC1 2).val ≠ some 5 := by
  decide

/-- Claim C7: for every breakpoint list, a negative time query or an empty
list makes get_timeval print a diagnostic and return the fallback value 0
rather than aborting, and, independently, get_percentval inherits this
behavior on every list for which the time it passes down is negative or the
list is empty. -/
theorem c7_fallback :
    (∀ (bp : Breakpoints) (t : ℚ), t < 0 ∨ bp_len bp = 0 →
      get_timeval bp t = { warned := true, val := some 0 }) ∧
    (∀ (bp : Breakpoints) (p : ℚ), bp.maxtime * p < 0 ∨ bp_len bp = 0 →
      get_percentval bp p = { warned := true, val := some 0 }) := by
  constructor
  · intro bp t ht
    rcases ht with h | h
    · simp [get_timeval, h]
    · by_cases h0 : t < 0
      · simp [get_timeval, h0]
      · simp [get_timeval, h0, h]
  · intro bp p hp
    rcases hp with h | h
    · simp [get_percentval, get_timeval, h]
    · by_cases h0 : bp.maxtime * p < 0
      · simp [get_percentval, get_timeval, h0]
      · simp [get_percentval, get_timeval, h0, h]

/-- Witness for c7_fallback: the negative-time fallback on the non-empty
list bpC1 at t = -1, and the get_percentval fallback on the empty list. -/
theorem c7_fallback_witness :
    get_timeval bpC1 (-1) = { warned := true, val := some 0 } ∧
    get_percentval bpEmpty 7 = { warned := true, val := some 0 } :=
  ⟨c7_fallback.1 bpC1 (-1) (Or.inl (by decide)),
   c7_fallback.2 bpEmpty 7 (Or.inr (by decide))⟩

/-- Unparsable lines make load_go fail no matter the accumulator state. -/
theorem load_go_of_any_none (lines : List (Option (ℚ × ℚ)))
    (h : lines.any (fun l => l.isNone) = true) :
    ∀ acc t, load_go lines acc t = none := by
  induction lines with
  | nil => simp at h
  | cons a rest ih =>
    intro acc t
    cases a with
    | none => rfl
    | some p =>
      obtain ⟨tm, v⟩ := p
      simp only [List.any_cons, Option.isNone_some, Bool.false_or] at h
      show load_go (some (tm, v) :: rest) acc t = none
      unfold load_go
      cases hl : acc.getLast? with
      | none =>
        by_cases h0 : tm ≠ 0
        · simp [h0]
        · simp [h0, ih h]
      | some last =>
        by_cases h0 : tm < last.time
        · simp [h0]
        · simp [h0, ih h]

/-- A strict decrease between two consecutive parsed lines makes load_go
fail no matter the accumulator state. -/
theorem load_go_of_adj_dec (lines : List (Option (ℚ × ℚ)))
    (h : (lines.zip lines.tail).any (fun p => adjDec p.1 p.2) = true) :
    ∀ acc t, load_go lines acc t = none := by
  induction lines with
  | nil => simp at h
  | cons a rest ih =>
    intro acc t
    cases rest with
    | nil => simp at h
    | cons b rest2 =>
      cases a with
      | none => rfl
      | some p =>
        obtain ⟨t1, v1⟩ := p
        simp only [List.tail_cons, List.zip_cons_cons, List.any_cons, Bool.or_eq_true] at h
        show load_go (some (t1, v1) :: b :: rest2) acc t = none
        rcases h with h | h
        · -- the decrease is between the first two lines
          cases b with
          | none => simp [adjDec] at h
          | some q =>
            obtain ⟨t2, v2⟩ := q
            simp only [adjDec, decide_eq_true_eq] at h
            unfold load_go
            cases hl : acc.getLast? with
            | none =>
              by_cases h0 : t1 ≠ 0
              · simp [h0]
              · simp only [if_neg h0]
                unfold load_go
                simp [List.getLast?_append_cons, h]
            | some last =>
              by_cases h0 : t1 < last.time
              · simp [h0]
              · simp only [if_neg h0]
                unfold load_go
                simp [List.getLast?_append_cons, h]
        · -- the decrease is further down; the tail recursion fails
          have hrest : (b :: rest2).zip (b :: rest2).tail = (b :: rest2).zip rest2 := rfl
          have h2 := ih (by simpa [hrest] using h)
          unfold load_go
          cases hl : acc.getLast? with
          | none =>
            by_cases h0 : t1 ≠ 0
            · simp [h0]
            · simp [h0, h2]
          | some last =>
            by_cases h0 : t1 < last.time
            · simp [h0]
            · simp [h0, h2]

/-- Claim C4 as amended: load_bp_file reports a load failure whenever a line
is unparsable, or the first time is nonzero, or a time strictly decreases
from the previous line.  Equal consecutive times are accepted by the loader
(strict comparison time < list[count-1].time), which is the one point on
which the original claim fails; see c4_equal_times_accepted. -/
theorem c4_rejects_malformed (lines : List (Option (ℚ × ℚ)))
    (h : spec_malformed_strict lines = true) :
    load_bp_file lines = none := by
  unfold spec_malformed_strict at h
  simp only [Bool.or_eq_true] at h
  unfold load_bp_file
  rcases h with (h | h) | h
  · rw [load_go_of_any_none lines h]
    rfl
  · match lines, h with
    | some (t, v) :: rest, h =>
      simp only [decide_eq_true_eq] at h
      show ((load_go (some (t, v) :: rest) [] 0).map _) = none
      unfold load_go
      simp [h]
  · rw [load_go_of_adj_dec lines h]
    rfl

/-- Witness for c4_rejects_malformed at the concrete decreasing-time input
linesDecreasing. -/
theorem c4_rejects_malformed_witness :
    spec_malformed_strict linesDecreasing = true ∧ load_bp_file linesDecreasing = none :=
  ⟨by decide, c4_rejects_malformed linesDecreasing (by decide)⟩

/-- Counterexample to claim C4 as stated: the input linesEqualTimes has two
consecutive breakpoints with equal times 0 and 0, which the claim counts as
non-increasing and hence a load failure, yet load_bp_file accepts it and
hands back an envelope. -/
theorem c4_equal_times_accepted :
    load_bp_file linesEqualTimes =
      some { list := [{ time := 0, val := 1 }, { time := 0, val := 2 }], maxtime := 0 } ∧
    load_bp_file linesEqualTimes ≠ none := by
  decide

/-- Both branches of oscil_tick increment curr_sample by exactly one. -/
theorem oscil_tick_curr_sample (osc : Oscillator) :
    (oscil_tick osc).2.curr_sample = osc.curr_sample + 1 := by
  unfold oscil_tick
  split <;> rfl

/-- An oscil_tick call never changes slength. -/
theorem oscil_tick_slength (osc : Oscillator) :
    (oscil_tick osc).2.slength = osc.slength := by
  unfold oscil_tick
  split <;> rfl

/-- After k ticks curr_sample has advanced by exactly k. -/
theorem tickN_curr_sample (osc : Oscillator) (k : ℕ) :
    (tickN osc k).curr_sample = osc.curr_sample + k := by
  induction k generalizing osc with
  | zero => simp [tickN]
  | succ n ih =>
    rw [show tickN osc (n + 1) = tickN (oscil_tick osc).2 n from rfl, ih,
      oscil_tick_curr_sample]
    push_cast
    ring

/-- slength is invariant under any number of ticks. -/
theorem tickN_slength (osc : Oscillator) (k : ℕ) :
    (tickN osc k).slength = osc.slength := by
  induction k generalizing osc with
  | zero => rfl
  | succ n ih =>
    rw [show tickN osc (n + 1) = tickN (oscil_tick osc).2 n from rfl, ih, oscil_tick_slength]

/-- oscil_expired returns 1 exactly on curr_sample > slength, with the int
to float promotion of the comparison made explicit. -/
theorem oscil_expired_eq_true_iff (osc : Oscillator) :
    oscil_expired osc = true ↔ (osc.curr_sample : ℚ) > osc.slength := by
  unfold oscil_expired
  split <;> simp_all

/-- oscil_expired returns 0 exactly on curr_sample less than or equal to
slength. -/
theorem oscil_expired_eq_false_iff (osc : Oscillator) :
    oscil_expired osc = false ↔ ¬ (osc.curr_sample : ℚ) > osc.slength := by
  unfold oscil_expired
  split <;> simp_all

/-- Claim C5: an oscillator built with durationSeconds 1, startDelaySeconds
0 and sampleRate 48000 has durationSamples 48000; oscil_expired stays false
after each of the first 48000 ticks, turns true from the 48001st tick
onward, and in general oscil_expired is true exactly when curr_sample
exceeds slength. -/
theorem c5_expiry (id : ℤ) (tab : List ℚ) (tablen : ℤ) (bp : Breakpoints) (freq amp : ℚ) :
    (∀ k : ℕ, k ≤ 48000 →
      oscil_expired (tickN (new_osc id tab tablen bp 48000 freq amp 1 0) k) = false) ∧
    (∀ k : ℕ, 48001 ≤ k →
      oscil_expired (tickN (new_osc id tab tablen bp 48000 freq amp 1 0) k) = true) ∧
    (∀ osc : Oscillator, oscil_expired osc = true ↔ (osc.curr_sample : ℚ) > osc.slength) := by
  have h0 : (new_osc id tab tablen bp 48000 freq amp 1 0).curr_sample = 0 := by
    simp [new_osc, truncToInt]
  have hsl : (new_osc id tab tablen bp 48000 freq amp 1 0).slength = 48000 := by
    norm_num [new_osc]
  refine ⟨?_, ?_, oscil_expired_eq_true_iff⟩
  · intro k hk
    rw [oscil_expired_eq_false_iff, tickN_curr_sample, tickN_slength, h0, hsl]
    have : (k : ℚ) ≤ 48000 := by exact_mod_cast hk
    push_cast
    linarith
  · intro k hk
    rw [oscil_expired_eq_true_iff, tickN_curr_sample, tickN_slength, h0, hsl]
    have : (48001 : ℚ) ≤ (k : ℚ) := by exact_mod_cast hk
    push_cast
    linarith

/-- Witness for c5_expiry at a concrete oscillator, at the boundary ticks
48000 and 48001. -/
theorem c5_expiry_witness :
    oscil_expired (tickN (new_osc 1 [0] 1 bpUnit 48000 440 1 1 0) 48000) = false ∧
    oscil_expired (tickN (new_osc 1 [0] 1 bpUnit 48000 440 1 1 0) 48001) = true :=
  ⟨(c5_expiry 1 [0] 1 bpUnit 440 1).1 48000 (by decide),
   (c5_expiry 1 [0] 1 bpUnit 440 1).2.1 48001 (by decide)⟩

/-- Claim C6: a pre-roll or expired oscillator has its curr_sample counter
incremented and returns exactly amplitude 0, the rest of its state
untouched; and an oscillator built with startDelaySeconds 1 at sampleRate
48000 returns exactly 0 from each of its first 48000 tick calls. -/
theorem c6_inactive_silent :
    (∀ osc : Oscillator, osc.curr_sample < 0 ∨ (osc.curr_sample : ℚ) > osc.slength →
      oscil_tick osc = (some 0, { osc with curr_sample := osc.curr_sample + 1 })) ∧
    (∀ (id : ℤ) (tab : List ℚ) (tablen : ℤ) (bp : Breakpoints) (freq amp len : ℚ) (k : ℕ),
      k < 48000 → tickOut (new_osc id tab tablen bp 48000 freq amp len 1) k = some 0) := by
  have key : ∀ osc : Oscillator, osc.curr_sample < 0 ∨ (osc.curr_sample : ℚ) > osc.slength →
      oscil_tick osc = (some 0, { osc with curr_sample := osc.curr_sample + 1 }) := by
    intro osc h
    unfold oscil_tick
    rw [if_pos h]
  refine ⟨key, ?_⟩
  intro id tab tablen bp freq amp len k hk
  have h0 : (new_osc id tab tablen bp 48000 freq amp len 1).curr_sample = -48000 := by
    norm_num [new_osc, truncToInt]
  have hcs : (tickN (new_osc id tab tablen bp 48000 freq amp len 1) k).curr_sample < 0 := by
    rw [tickN_curr_sample, h0]
    omega
  unfold tickOut
  rw [key _ (Or.inl hcs)]

/-- Witness for c6_inactive_silent: the pre-roll state oscPre and the first
tick of a delayed oscillator. -/
theorem c6_inactive_silent_witness :
    oscil_tick oscPre = (some 0, { oscPre with curr_sample := oscPre.curr_sample + 1 }) ∧
    tickOut (new_osc 1 [0] 1 bpUnit 48000 440 1 1 1) 0 = some 0 :=
  ⟨c6_inactive_silent.1 oscPre (Or.inl (by decide)),
   c6_inactive_silent.2 1 [0] 1 bpUnit 440 1 1 0 (by decide)⟩

/-- Claim C2: the true phase increment of oscC2 is the fraction 3/2, but
because index and inc are declared int in oscillator.h the stored increment
is the truncation 1, and after 2 active ticks the accumulated table index is
2, not the 2 * (3/2) = 3 the fractional-accumulator claim requires. -/
theorem c2_truncated_phase :
    oscC2.freq * (oscC2.tablen : ℚ) / (oscC2.samplerate : ℚ) = 3 / 2 ∧
    (oscil_tick oscC2).2.inc = 1 ∧
    (tickN oscC2 2).index = 2 ∧
    ((tickN oscC2 2).index : ℚ) ≠ 2 * (3 / 2) := by
  have hfloor : (⌊(3 / 2 : ℚ)⌋ : ℤ) = 1 := by
    rw [Int.floor_eq_iff]
    norm_num
  have h2 : (tickN oscC2 2).index = 2 := by
    norm_num [tickN, oscil_tick, oscC2, new_osc, truncToInt, get_percentval, get_timeval,
      bp_len, bp_index, bpUnit, hfloor]
  refine ⟨by norm_num [oscC2, new_osc], ?_, h2, by rw [h2]; norm_num⟩
  norm_num [tickN, oscil_tick, oscC2, new_osc, truncToInt, get_percentval, get_timeval,
    bp_len, bp_index, bpUnit, hfloor]

/-- Removing the id of the head node drops exactly the head. -/
theorem oscil_list_remove_head (o : Oscillator) (rest : List Oscillator) :
    oscil_list_remove (o :: rest) o.id = rest := by
  simp [oscil_list_remove]

/-- Removal by an id that no element of the prefix carries passes over the
prefix unchanged. -/
theorem oscil_list_remove_append (pre l : List Oscillator) (i : ℤ)
    (h : ∀ o ∈ pre, o.id ≠ i) :
    oscil_list_remove (pre ++ l) i = pre ++ oscil_list_remove l i := by
  induction pre with
  | nil => rfl
  | cons p ps ih =>
    simp only [List.cons_append, oscil_list_remove, List.append_eq]
    rw [if_neg (h p (by simp))]
    rw [ih fun o ho => h o (by simp [ho])]

/-- Invariant of the synch_update scan: when the live list splits into an
already-scanned prefix of non-expired survivors and the cursor suffix, and
ids are pairwise distinct, the scan returns the prefix followed by the
non-expired part of the suffix. -/
theorem synch_go_spec (cursor : List Oscillator) :
    ∀ pre : List Oscillator,
      ((pre ++ cursor).map (fun o => o.id)).Nodup →
      (∀ o ∈ pre, oscil_expired o = false) →
      synch_go (pre ++ cursor) cursor = pre ++ cursor.filter (fun o => ! oscil_expired o) := by
  induction cursor with
  | nil =>
    intro pre _ _
    simp [synch_go]
  | cons o rest ih =>
    intro pre hnd hpre
    by_cases he : oscil_expired o = true
    · have hid : ∀ p ∈ pre, p.id ≠ o.id := by
        intro p hp heq
        have hmap := hnd
        rw [List.map_append] at hmap
        exact List.disjoint_of_nodup_append hmap
          (List.mem_map_of_mem _ hp) (by simp [heq])
      have hrem : oscil_list_remove (pre ++ o :: rest) o.id = pre ++ rest := by
        rw [oscil_list_remove_append pre (o :: rest) o.id hid, oscil_list_remove_head]
      have hnd2 : ((pre ++ rest).map (fun o => o.id)).Nodup := by
        refine List.Nodup.sublist ?_ hnd
        exact List.Sublist.map _ (List.Sublist.append_left (List.sublist_cons_self o rest) pre)
      simp only [synch_go]
      rw [if_pos he, hrem, ih pre hnd2 hpre]
      simp [List.filter_cons, he]
    · have he' : oscil_expired o = false := by
        cases hob : oscil_expired o
        · rfl
        · exact absurd hob he
      simp only [synch_go]
      rw [if_neg he]
      have hassoc : pre ++ o :: rest = (pre ++ [o]) ++ rest := by simp
      rw [hassoc, ih (pre ++ [o]) (by simpa using hnd) ?_]
      · simp [List.filter_cons, he']
      · intro p hp
        rcases List.mem_append.mp hp with h1 | h1
        · exact hpre p h1
        · simp only [List.mem_singleton] at h1
          subst h1
          exact he'

/-- Claim C8 as amended: on any oscillator list whose ids are pairwise
distinct (the documented uniqueness requirement of oscillator lists),
synch_update removes exactly the expired entries and keeps every other
entry, its whole state including curr_sample unchanged. -/
theorem c8_reap_filter (l : List Oscillator) (h : (l.map (fun o => o.id)).Nodup) :
    synch_update l = l.filter (fun o => ! oscil_expired o) := by
  have hs := synch_go_spec l [] (by simpa using h) (by intro o ho; simp at ho)
  simpa [synch_update] using hs

/-- Witness for c8_reap_filter on a registry holding one expired and one
active oscillator: exactly the expired one is removed and the active one
survives with identical state. -/
theorem c8_reap_filter_witness :
    synch_update [oscExpired, oscActive] =
      List.filter (fun o => ! oscil_expired o) [oscExpired, oscActive] ∧
    List.filter (fun o => ! oscil_expired o) [oscExpired, oscActive] = [oscActive] :=
  ⟨c8_reap_filter [oscExpired, oscActive] (by decide), by decide⟩

/-- Counterexample to claim C8 as stated over every oscillator list: with a
duplicated id, scanning the expired oscExpiredDup removes the first node
carrying id 1, which is the active oscActive, so the reap deletes an active
entry and keeps an expired one. -/
theorem c8_duplicate_id_counterexample :
    oscil_expired oscActive = false ∧ oscil_expired oscExpiredDup = true ∧
    synch_update [oscActive, oscExpiredDup] = [oscExpiredDup] ∧
    synch_update [oscActive, oscExpiredDup] ≠
      List.filter (fun o => ! oscil_expired o) [oscActive, oscExpiredDup] := by
  decide

/-- One pass of the callback inner loop accumulates the fold of the current
tick results and advances every oscillator by one tick. -/
theorem mix_tick_spec (oscs : List Oscillator) (val : Option ℚ) :
    mix_tick oscs val =
      (oscs.foldl (fun acc o => optAdd acc (oscil_tick o).1) val,
       oscs.map (fun o => (oscil_tick o).2)) := by
  induction oscs generalizing val with
  | nil => rfl
  | cons o rest ih => simp [mix_tick, ih]

/-- Tick number i of an oscillator already advanced by one tick is tick
number i+1 of the original oscillator. -/
theorem tickOut_tick (o : Oscillator) (i : ℕ) :
    tickOut (oscil_tick o).2 i = tickOut o (i + 1) := rfl

/-- Shifting every oscillator by one tick shifts the per-sample sum by one
tick number. -/
theorem sampleSum_step (oscs : List Oscillator) (i : ℕ) :
    sampleSum (oscs.map (fun o => (oscil_tick o).2)) i = sampleSum oscs (i + 1) := by
  unfold sampleSum
  rw [List.foldl_map]
  simp [tickOut_tick]

/-- The sum of the first tick results is the fold the callback inner loop
computes on the initial states. -/
theorem sampleSum_zero (oscs : List Oscillator) :
    sampleSum oscs 0 = oscs.foldl (fun acc o => optAdd acc (oscil_tick o).1) (some 0) := rfl

/-- Claim C9: for every oscillator list and frame length, the render pass
returns exactly the samples whose i-th entry is the sum over the oscillators
of the tick number i result of that oscillator, each oscillator ticked once
per output sample in list order with no clipping applied to the sum, and
leaves every oscillator advanced by exactly frameCount ticks. -/
theorem c9_render_sum (oscs : List Oscillator) (n : ℕ) :
    (audio_player_callback oscs n).1 = (List.range n).map (fun i => sampleSum oscs i) ∧
    (audio_player_callback oscs n).2 = oscs.map (fun o => tickN o n) := by
  induction n generalizing oscs with
  | zero =>
    refine ⟨rfl, ?_⟩
    show oscs = oscs.map (fun o => tickN o 0)
    simp [tickN]
  | succ n ih =>
    have h1 : (audio_player_callback oscs (n + 1)).1
        = (mix_tick oscs (some 0)).1 :: (audio_player_callback (mix_tick oscs (some 0)).2 n).1 :=
      rfl
    have h2 : (audio_player_callback oscs (n + 1)).2
        = (audio_player_callback (mix_tick oscs (some 0)).2 n).2 := rfl
    rw [mix_tick_spec] at h1 h2
    simp only [] at h1 h2
    constructor
    · rw [h1, (ih (oscs.map (fun o => (oscil_tick o).2))).1,
        List.range_succ_eq_map, List.map_cons, List.map_map]
      have hf : (fun i => sampleSum (oscs.map (fun o => (oscil_tick o).2)) i)
          = ((fun i => sampleSum oscs i) ∘ Nat.succ) :=
        funext fun i => sampleSum_step oscs i
      rw [hf, sampleSum_zero oscs]
    · rw [h2, (ih (oscs.map (fun o => (oscil_tick o).2))).2, List.map_map]
      have hg : ((fun o => tickN o n) ∘ fun o => (oscil_tick o).2)
          = (fun o => tickN o (n + 1)) :=
        funext fun o => rfl
      rw [hg]

/-- Claim C3: the event traces of insert (add_osc) and of the render
callback keep every access to the shared oscillator list inside the
lock-unlock pair, but the trace of synch_update touches the list at lock
depth zero for every oscillator list, including the empty one, because its
body contains no pthread_mutex call. -/
theorem c3_lock_discipline :
    accessesLocked add_osc_events = true ∧
    (∀ frames oscCount : ℕ,
      accessesLocked (audio_player_callback_events frames oscCount) = true) ∧
    (∀ oscs : List Oscillator, accessesLocked (synch_update_events oscs) = false) := by
  have haux : ∀ (k : ℕ) (r : List RegEvent) (d : ℕ), 0 < d →
      locked_run (List.replicate k RegEvent.access ++ r) d = locked_run r d := by
    intro k
    induction k with
    | zero => intro r d _; rfl
    | succ m ih =>
      intro r d hd
      show (decide (0 < d) && locked_run (List.replicate m RegEvent.access ++ r) d) = _
      rw [decide_eq_true hd, Bool.true_and, ih r d hd]
  refine ⟨rfl, ?_, ?_⟩
  · intro frames oscCount
    have hstep : accessesLocked (audio_player_callback_events frames oscCount)
        = locked_run
            (List.replicate (frames * (oscCount + 1)) RegEvent.access ++ [RegEvent.unlock]) 1 :=
      rfl
    rw [hstep, haux _ _ 1 Nat.one_pos]
    rfl
  · intro oscs
    rfl

/-- Claim C10: oscC10 starts at index 0 with phase increment 3, strictly
below its table length 4, yet after the fourth active tick the index equals
tablen exactly, because the wrap only fires on index strictly greater than
tablen; the fifth tick then reads tab[tablen], one element past the end of
the table, modelled as the undefined result none. -/
theorem c10_index_reaches_tablen :
    oscC10.index = 0 ∧
    oscC10.freq * (oscC10.tablen : ℚ) / (oscC10.samplerate : ℚ) < (oscC10.tablen : ℚ) ∧
    (tickN oscC10 4).index = oscC10.tablen ∧
    ¬ (0 ≤ (tickN oscC10 4).index ∧ (tickN oscC10 4).index < oscC10.tablen) ∧
    (oscil_tick (tickN oscC10 4)).1 = none := by
  have h3 : (tickN oscC10 4).index = 4 := by
    norm_num [tickN, oscil_tick, oscC10, new_osc, truncToInt, get_percentval, get_timeval,
      bp_len, bp_index, bpUnit]
  have ht : oscC10.tablen = 4 := rfl
  refine ⟨rfl, by norm_num [oscC10, new_osc], by rw [h3, ht], by rw [h3, ht]; norm_num, ?_⟩
  norm_num [tickN, oscil_tick, oscC10, new_osc, truncToInt, get_percentval, get_timeval,
    bp_len, bp_index, bpUnit]

end AuralLandscapes
